import Mathlib

/-!
Shallow embedding of `Projects/AnnaSemik_MateuszBiesiadowski_PaulinaKaczynska/checkpoint3/exp_utils.py`
and verification of the specified properties of `DataProcessor` and `Experiment`.

Conventions used throughout:
* Python `None`-able arguments become `Option` values (`none` = Python `None`).
* Python dictionaries of keyword parameters become association lists `List (String × String)`;
  a dict that is present but empty is `some []`, an absent dict is `none`.
* pandas dataframes become `DataFrame`: an ordered list of labelled columns of cells.
* numeric cells use `Int`/`ℚ`, never floating point; wall-clock durations are opaque `ℚ` values
  supplied by a parameter (the embedding never models real time itself).
-/

namespace ExpUtils

/-- A keyword-parameter dictionary as passed to the Python constructors: present (`some`, possibly
empty) or absent (`none`). -/
abbrev ParamDict := List (String × String)

/-- The explanation-related configuration accepted by `Experiment.__init__` (exp_utils.py lines
85-87): each field mirrors the keyword argument of the same name, with `none` for Python `None`.
The class arguments are kept abstract as their (irrelevant) names. -/
structure ExperimentConfig where
  shap_class : Option String
  shap_params : Option ParamDict
  dalex_class : Option String
  dalex_params : Option ParamDict
  pvi_params : Option ParamDict
  pdp_params : Option ParamDict
  ale_params : Option ParamDict
deriving DecidableEq

/-- The conjunction of the five `assert` statements of `Experiment.__init__` (exp_utils.py lines
107-111), evaluated before any model training or metric computation; construction succeeds iff
this is `true`. Each disjunct is a literal transcription of `X is None or Y is not None`. -/
def checkConfig (cfg : ExperimentConfig) : Bool :=
  (cfg.shap_class.isNone || cfg.shap_params.isSome) &&
  (cfg.dalex_class.isNone || cfg.dalex_params.isSome) &&
  (cfg.pvi_params.isNone || cfg.dalex_class.isSome) &&
  (cfg.pdp_params.isNone || cfg.pvi_params.isSome) &&
  (cfg.ale_params.isNone || cfg.pvi_params.isSome)

/-- `true` iff an optional parameter dictionary is present and non-empty. -/
def nonEmptyParams : Option ParamDict → Bool
  | some l => !l.isEmpty
  | none => false

/-- The validity predicate as the claim words it: an explanation class must be accompanied by a
*non-empty* parameter set, permutation-importance parameters require the global-explainer class,
and PDP/ALE parameters require permutation-importance parameters. -/
def claimedValidConfig (cfg : ExperimentConfig) : Bool :=
  (cfg.shap_class.isNone || nonEmptyParams cfg.shap_params) &&
  (cfg.dalex_class.isNone || nonEmptyParams cfg.dalex_params) &&
  (cfg.pvi_params.isNone || cfg.dalex_class.isSome) &&
  (cfg.pdp_params.isNone || cfg.pvi_params.isSome) &&
  (cfg.ale_params.isNone || cfg.pvi_params.isSome)

/-- A configuration passing `shap_class` together with a present but *empty* parameter dict. -/
def cfgEmptyShapParams : ExperimentConfig :=
  ⟨some "shap.TreeExplainer", some [], none, none, none, none, none⟩

/-- A configuration with every stage absent. -/
def cfgAllNone : ExperimentConfig := ⟨none, none, none, none, none, none, none⟩

/-- A configuration with every stage configured. -/
def cfgAllStages : ExperimentConfig :=
  ⟨some "shap.TreeExplainer", some [("k", "v")], some "dx.Explainer", some [("k", "v")],
   some [("B", "10")], some [("N", "300")], some [("N", "300")]⟩

/-- A configuration passing `shap_params` alone, without `shap_class`. -/
def cfgShapParamsOnly : ExperimentConfig :=
  ⟨none, some [("k", "v")], none, none, none, none, none⟩

/-- Keys contributed by `Experiment.__calc_shap` (exp_utils.py lines 139-152): empty when
`shap_class is None`, otherwise the three SHAP keys. -/
def calcShapKeys (cfg : ExperimentConfig) : List String :=
  if cfg.shap_class.isNone then [] else ["shap_exp", "shap_sv", "shap_svi"]

/-- Keys contributed by `Experiment.__calc_pvi` (lines 157-170). -/
def calcPviKeys (cfg : ExperimentConfig) : List String :=
  if cfg.pvi_params.isNone then [] else ["pvi"]

/-- Keys contributed by `Experiment.__calc_pdp` (lines 172-176). -/
def calcPdpKeys (cfg : ExperimentConfig) : List String :=
  if cfg.pdp_params.isNone then [] else ["pdp"]

/-- Keys contributed by `Experiment.__calc_ale` (lines 178-182). -/
def calcAleKeys (cfg : ExperimentConfig) : List String :=
  if cfg.ale_params.isNone then [] else ["ale"]

/-- The key set of the metric bundle returned by `Experiment.__calculate_metrics` (exp_utils.py
lines 190-205): always `X` and `y`, the SHAP keys, and — only when `dalex_class` is configured —
`dx_exp` followed by the PVI/PDP/ALE keys. -/
def calculateMetricsKeys (cfg : ExperimentConfig) : List String :=
  let base := ["X", "y"] ++ calcShapKeys cfg
  if cfg.dalex_class.isNone then base
  else base ++ ["dx_exp"] ++ calcPviKeys cfg ++ calcPdpKeys cfg ++ calcAleKeys cfg

/-- The key set as the claim words it: a key for a stage present iff that stage's *parameters*
were configured. -/
def claimedMetricsKeys (cfg : ExperimentConfig) : List String :=
  ["X", "y"] ++
  (if cfg.shap_params.isSome then ["shap_exp", "shap_sv", "shap_svi"] else []) ++
  (if cfg.dalex_params.isSome then ["dx_exp"] else []) ++
  (if cfg.pvi_params.isSome then ["pvi"] else []) ++
  (if cfg.pdp_params.isSome then ["pdp"] else []) ++
  (if cfg.ale_params.isSome then ["ale"] else [])

/-- The argument check of `DataProcessor.__init__` (exp_utils.py line 21):
`assert (df is not None and target is not None) or (X is not None and y is not None)`. -/
def dataProcessorCheck {A B C D : Type} (df : Option A) (tgt : Option B)
    (X : Option C) (y : Option D) : Bool :=
  (df.isSome && tgt.isSome) || (X.isSome && y.isSome)

/-- The acceptance condition as the claim words it: *exactly one* of the two input modes
{raw table + target column} and {features + labels} is supplied. -/
def exactlyOneMode {A B C D : Type} (df : Option A) (tgt : Option B)
    (X : Option C) (y : Option D) : Bool :=
  (df.isSome && tgt.isSome) != (X.isSome && y.isSome)

/-- Draw `k` values without replacement from `pool`, the choice at each step driven by the
abstract random stream `g`. This models `np.random.choice(n, size=k, replace=False)` as used at
exp_utils.py line 283: the concrete distribution is irrelevant to the verified properties, only
that each drawn element is removed from the pool before the next draw. An exhausted pool stops
the draw (NumPy would raise there; the theorems exclude it by hypothesis). -/
def sampleWithoutReplacement (g : Nat → Nat) : List Nat → Nat → List Nat
  | _, 0 => []
  | pool, k + 1 =>
    if pool.isEmpty then []
    else
      let x := pool.getD (g k % pool.length) 0
      x :: sampleWithoutReplacement g (pool.erase x) k

/-- The random-control draw of `Experiment.run` (exp_utils.py lines 283-284):
`np.random.choice(X.shape[0], size=len(ids_compressed), replace=False)` — a without-replacement
sample from the row indices `0..numRows-1` whose requested size is the length of the
compressed-index list of the same trial. -/
def drawRandomIds (g : Nat → Nat) (numRows : Nat) (ids_compressed : List Nat) : List Nat :=
  sampleWithoutReplacement g (List.range numRows) ids_compressed.length

/-- `.iloc[idx]` positional row selection on a row list, as used at exp_utils.py lines 286-287
(`X.iloc[ids_compressed]`, `y.iloc[ids_compressed]`, and the random counterparts). -/
def iloc {α : Type} (rows : List α) (idx : List Nat) : List α :=
  idx.filterMap (fun i => rows[i]?)

/-- One row of the `model_parts` result table of the dalex global explainer: a variable name and
its dropout loss. The spec's external-interface contract only fixes these two columns and the two
synthetic rows `_baseline_` and `_full_model_`. -/
structure PartRow where
  varName : String
  dropout_loss : Int
deriving DecidableEq

/-- `true` on the two synthetic rows of a `model_parts` result table. -/
def isSynthetic (r : PartRow) : Bool :=
  r.varName == "_baseline_" || r.varName == "_full_model_"

/-- Lexicographic comparison of character lists by code point. -/
def charListLe : List Char → List Char → Bool
  | [], _ => true
  | _ :: _, [] => false
  | a :: as, b :: bs =>
    if a.toNat < b.toNat then true
    else if b.toNat < a.toNat then false
    else charListLe as bs

/-- Lexicographic string comparison by code point (the order pandas sorts string values in). -/
def strLe (a b : String) : Bool := charListLe a.data b.data

/-- `sort_values('variable')` on a slice of the result table. -/
def sortByVariable (rows : List PartRow) : List PartRow :=
  List.insertionSort (fun a b => strLe a.varName b.varName = true) rows

/-- Embeds `pvi_.result.iloc[1:X.shape[1], :].sort_values('variable').dropout_loss` at
exp_utils.py line 163: rows `1 .. p-1` of the result table (`p = X.shape[1]`), sorted by variable
name, keeping only the loss column. -/
def calcPviLosses (result : List PartRow) (p : Nat) : List Int :=
  (sortByVariable ((result.drop 1).take (p - 1))).map (fun r => r.dropout_loss)

/-- The PVI vector as the claim words it: drop exactly the `_baseline_`/`_full_model_` synthetic
rows, sort by variable name, keep the loss values. -/
def claimedPviLosses (result : List PartRow) : List Int :=
  (sortByVariable (result.filter (fun r => !isSynthetic r))).map (fun r => r.dropout_loss)

/-- Embeds line 164-165:
`pvi_.result[~pvi_.result.variable.isin(['_baseline_', '_full_model_'])].variable.iloc[-1]` —
the variable name of the last non-synthetic row. -/
def mostImportantVariable (result : List PartRow) : Option String :=
  ((result.filter (fun r => !isSynthetic r)).getLast?).map (fun r => r.varName)

/-- `np.linspace a b num` over ℚ: `num` points `a + (b - a) * i / (num - 1)`. (For `num = 1` the
ℚ convention `x / 0 = 0` yields `[a]`, exactly NumPy's behaviour.) -/
def linspace (a b : ℚ) (num : Nat) : List ℚ :=
  (List.range num).map (fun (i : Nat) => a + (b - a) * (i : ℚ) / ((num - 1 : Nat) : ℚ))

/-- Minimum of a column, `X[v].min()`. -/
def listMin (xs : List ℚ) : ℚ := xs.foldr min (xs.headD 0)

/-- Maximum of a column, `X[v].max()`. -/
def listMax (xs : List ℚ) : ℚ := xs.foldr max (xs.headD 0)

/-- The `variable_splits` grid of exp_utils.py lines 166-168:
`np.linspace(X[v].min(), X[v].max(), num=self.pdp_domain)` for the selected variable's column. -/
def variableSplits (col : List ℚ) (pdp_domain : Nat) : List ℚ :=
  linspace (listMin col) (listMax col) pdp_domain

/-- A concrete `model_parts` result table with two real variables, loss-ascending, the synthetic
`_full_model_` row first and `_baseline_` row last (the layout the dalex library produces). -/
def examplePartsTable : List PartRow :=
  [⟨"_full_model_", 0⟩, ⟨"age", 1⟩, ⟨"bmi", 2⟩, ⟨"_baseline_", 3⟩]

/-- The harness's timing table `self.times`: a single mutable mapping from operation name to the
last recorded duration, modelled as a function to `Option ℚ`. -/
abbrev Times := String → Option ℚ

/-- The empty timing table (`self.times = {}`, exp_utils.py line 100). -/
def emptyTimes : Times := fun _ => none

/-- The write performed by `Experiment.__timeit` (exp_utils.py line 125):
`self.times[name] = et - st` — an in-place overwrite of the single shared mapping. -/
def timeit (t : Times) (name : String) (elapsed : ℚ) : Times :=
  fun k => if k = name then some elapsed else t k

/-- The timing behaviour of the seed loop of `Experiment.run` (exp_utils.py lines 269-300):
starting from a timing table, each seed `0, 1, ...` re-times the same fixed operation names
(`kt`, `random`, and the per-stage names) into the one shared `self.times`, then
`exp_results_to_df` snapshots `times.items()` into that seed's results row. Returns the final
state of `self.times` together with the per-row snapshots, given the abstract per-seed durations
`dur`. -/
def runTimings (opNames : List String) (dur : Nat → String → ℚ) : Nat → Times × List Times
  | 0 => (emptyTimes, [])
  | n + 1 =>
    let prev := runTimings opNames dur n
    let t := opNames.foldl (fun acc nm => timeit acc nm (dur n nm)) prev.1
    (t, prev.2 ++ [t])

/-- A dataframe cell: missing (`NaN`), an integer, or a string / categorical value. -/
inductive Cell where
  | na : Cell
  | intV : Int → Cell
  | strV : String → Cell
deriving DecidableEq

/-- A pandas column label before the final `astype(str)` coercion: either already a string or a
positional integer label. -/
inductive ColLabel where
  | str : String → ColLabel
  | num : Nat → ColLabel
deriving DecidableEq

/-- `astype(str)` on one column label. -/
def ColLabel.toStr : ColLabel → String
  | .str s => s
  | .num n => toString n

/-- A pandas dataframe: an ordered list of labelled columns of cells. -/
structure DataFrame where
  cols : List (ColLabel × List Cell)
deriving DecidableEq

/-- `true` on the missing-value cell. -/
def Cell.isNA : Cell → Bool
  | .na => true
  | _ => false

/-- The sort/deduplication key of a cell value (category identity). -/
def Cell.key : Cell → String
  | .na => ""
  | .intV i => toString i
  | .strV s => s

/-- `df.drop(columns=names)`. -/
def DataFrame.dropColumns (df : DataFrame) (names : List ColLabel) : DataFrame :=
  ⟨df.cols.filter (fun c => decide (c.1 ∉ names))⟩

/-- Number of rows (length of the first column; 0 for a column-less frame). -/
def DataFrame.nRows (df : DataFrame) : Nat :=
  (df.cols.head?.map (fun c => c.2.length)).getD 0

/-- `true` when row `i` holds a missing value in some column. -/
def DataFrame.rowHasNA (df : DataFrame) (i : Nat) : Bool :=
  df.cols.any (fun c => (c.2.getD i .na).isNA)

/-- `df.dropna()`: keep exactly the rows with no missing value in any column. -/
def DataFrame.dropna (df : DataFrame) : DataFrame :=
  let keep := (List.range df.nRows).filter (fun i => !df.rowHasNA i)
  ⟨df.cols.map (fun c => (c.1, keep.map (fun i => c.2.getD i .na)))⟩

/-- The (lexicographically sorted) category list of a column, as a pandas categorical dtype
orders its categories. -/
def categoriesOf (col : List Cell) : List String :=
  List.insertionSort (fun a b => strLe a b = true)
    ((col.filter (fun c => !c.isNA)).map Cell.key).dedup

/-- `.cat.codes`: each cell replaced by the integer position of its value among the sorted
categories; missing values code to `-1`. -/
def catCodes (col : List Cell) : List Cell :=
  let cats := categoriesOf col
  col.map (fun c => if c.isNA then Cell.intV (-1) else Cell.intV (cats.indexOf c.key))

/-- `df[name]`: the cells of the named column (empty for a missing column). -/
def DataFrame.getCol (df : DataFrame) (name : ColLabel) : List Cell :=
  ((df.cols.find? (fun c => c.1 == name)).map (fun c => c.2)).getD []

/-- `df[name] = vals`: in-place replacement of an existing column's cells (appending a new last
column when the label is absent, as pandas does). -/
def DataFrame.setCol (df : DataFrame) (name : ColLabel) (vals : List Cell) : DataFrame :=
  if df.cols.any (fun c => c.1 == name) then
    ⟨df.cols.map (fun c => if c.1 == name then (c.1, vals) else c)⟩
  else ⟨df.cols ++ [(name, vals)]⟩

/-- `df.drop(name, axis=1)`. -/
def DataFrame.dropCol (df : DataFrame) (name : ColLabel) : DataFrame :=
  ⟨df.cols.filter (fun c => !(c.1 == name))⟩

/-- The indicator columns `name_cat` produced for one one-hot-encoded column. -/
def oneHotColumn (name : ColLabel) (col : List Cell) : List (ColLabel × List Cell) :=
  (categoriesOf col).map (fun cat =>
    (ColLabel.str (name.toStr ++ "_" ++ cat),
     col.map (fun c => if !c.isNA && c.key == cat then Cell.intV 1 else Cell.intV 0)))

/-- `pd.get_dummies(df, columns=names)`: the encoded columns are removed from their positions and
their indicator columns appended at the end. -/
def DataFrame.getDummies (df : DataFrame) (names : List ColLabel) : DataFrame :=
  ⟨(df.cols.filter (fun c => decide (c.1 ∉ names))) ++
   (names.flatMap (fun nm => oneHotColumn nm (df.getCol nm)))⟩

/-- `df.columns = df.columns.astype(str)`. -/
def DataFrame.strColumns (df : DataFrame) : DataFrame :=
  ⟨df.cols.map (fun c => (ColLabel.str c.1.toStr, c.2))⟩

/-- One iteration of the `for cat in self.to_cat` loop (exp_utils.py lines 58-60), on the state
(caller's `df` object, current `clean_df`, does `clean_df` still alias the caller's object?):
`clean_df[cat] = clean_df[cat].cat.codes` writes the codes in place — into the caller's object
too while the alias is live — and `clean_df = clean_df.drop(cat, axis=1)` rebinds `clean_df` to a
fresh frame, ending the alias. -/
def catStepEff (st : DataFrame × DataFrame × Bool) (cat : ColLabel) :
    DataFrame × DataFrame × Bool :=
  let written := st.2.1.setCol cat (catCodes (st.2.1.getCol cat))
  (if st.2.2 then written else st.1, written.dropCol cat, false)

/-- The same loop iteration seen only through the produced `clean_df`: convert the column to
integer codes, then drop it. -/
def catStep (acc : DataFrame) (cat : ColLabel) : DataFrame :=
  (acc.setCol cat (catCodes (acc.getCol cat))).dropCol cat

/-- Embeds the raw-table path of `DataProcessor.__preprocess_data` (exp_utils.py lines 52-65),
tracking the aliasing of `clean_df = self.df`: the result is the pair
(state of the caller's `df` object after construction, the produced `clean_df`).
`clean_df` aliases the caller's object until the first rebinding (`drop`/`dropna`/
`drop(cat, axis=1)`/`get_dummies`) replaces it, so the in-place writes
`clean_df[cat] = clean_df[cat].cat.codes` (line 59) and `clean_df.columns = ...astype(str)`
(line 65) hit the caller's dataframe exactly while the alias is still live. The guards
`if self.to_drop:` and `if self.to_one_hot:` are Python truthiness tests on the lists. -/
def preprocessRaw (df : DataFrame) (to_drop : List ColLabel) (dropna : Bool)
    (to_cat to_one_hot : List ColLabel) : DataFrame × DataFrame :=
  let aliased0 := to_drop.isEmpty && !dropna
  let c1 := if to_drop.isEmpty then df else df.dropColumns to_drop
  let c2 := if dropna then c1.dropna else c1
  let st3 := to_cat.foldl catStepEff (df, c2, aliased0)
  let aliased4 := st3.2.2 && to_one_hot.isEmpty
  let c4 := if to_one_hot.isEmpty then st3.2.1 else st3.2.1.getDummies to_one_hot
  let result := c4.strColumns
  (if aliased4 then result else st3.1, result)

/-- The `clean_df` produced by the raw-table path of `DataProcessor.__preprocess_data`. -/
def preprocessData (df : DataFrame) (to_drop : List ColLabel) (dropna : Bool)
    (to_cat to_one_hot : List ColLabel) : DataFrame :=
  (preprocessRaw df to_drop dropna to_cat to_one_hot).2

/-- The raw-table preprocessing as the spec states it, one step per clause: drop the specified
columns, then (if enabled) drop rows with missing values, then convert each specified categorical
column to integer codes while dropping the original column, then one-hot-encode the specified
columns, then coerce all column labels to string type. -/
def specPreprocess (df : DataFrame) (to_drop : List ColLabel) (dropna : Bool)
    (to_cat to_one_hot : List ColLabel) : DataFrame :=
  let s1 := df.dropColumns to_drop
  let s2 := if dropna then s1.dropna else s1
  let s3 := to_cat.foldl catStep s2
  (s3.getDummies to_one_hot).strColumns

/-- A caller-supplied raw table with a categorical column `c` and a target column `t`. -/
def callerDf : DataFrame :=
  ⟨[(ColLabel.str "c", [Cell.strV "b", Cell.strV "a"]),
    (ColLabel.str "t", [Cell.intV 0, Cell.intV 1])]⟩

/-- Empirical cumulative distribution function of a 1-D sample at `t`. -/
def empCdf (xs : List ℚ) (t : ℚ) : ℚ :=
  ((xs.countP (fun x => decide (x ≤ t)) : ℚ)) / (xs.length : ℚ)

/-- The sorted list of distinct values occurring in either sample. -/
def mergedGrid (u v : List ℚ) : List ℚ :=
  (u ++ v).toFinset.sort (fun a b => a ≤ b)

/-- Modelled from the spec: `scipy.stats.wasserstein_distance` (an external library capability)
on two equal-weight 1-D empirical samples — the earth-mover distance
`∫ |F_u - F_v|`, computed exactly over ℚ as a sum over the segments between consecutive distinct
sample values. -/
def wasserstein_distance (u v : List ℚ) : ℚ :=
  let g := mergedGrid u v
  ((g.zip g.tail).map (fun p => |empCdf u p.1 - empCdf v p.1| * (p.2 - p.1))).sum

/-- Embeds `Experiment.compute_wasserstein_distance` (exp_utils.py lines 210-214):
`np.sum([wasserstein_distance(X[:, i], X_compressed[:, i]) for i in range(X.shape[1])])`.
Matrices are represented column-major (a list of feature columns), so `X.length` is
`X.shape[1]`. -/
def compute_wasserstein_distance (X X_compressed : List (List ℚ)) : ℚ :=
  ((List.range X.length).map
    (fun i => wasserstein_distance (X.getD i []) (X_compressed.getD i []))).sum

/-! ## Theorems -/

/-- C1 counterexample: the claim says an explanation class must be accompanied by a *non-empty*
parameter set, with any violating configuration failing the construction-time checks; but the
assertions of `Experiment.__init__` only test `is not None`, so `shap_class` together with a
present but empty `shap_params` dict passes `checkConfig` while violating the claimed
condition. -/
theorem c1_counterexample :
    checkConfig cfgEmptyShapParams = true ∧ claimedValidConfig cfgEmptyShapParams = false :=
  ⟨rfl, rfl⟩

/-- C1 (amended): the construction-time assertions of `Experiment.__init__` accept a
configuration exactly when every explanation class is accompanied by a *supplied* (possibly
empty) parameter set, permutation-importance parameters come with the global-explainer class
configured, and PDP/ALE parameters come with permutation-importance parameters configured. -/
theorem c1_construction_checks (cfg : ExperimentConfig) :
    checkConfig cfg = true ↔
      ((cfg.shap_class.isSome = true → cfg.shap_params.isSome = true) ∧
       (cfg.dalex_class.isSome = true → cfg.dalex_params.isSome = true) ∧
       (cfg.pvi_params.isSome = true → cfg.dalex_class.isSome = true) ∧
       (cfg.pdp_params.isSome = true → cfg.pvi_params.isSome = true) ∧
       (cfg.ale_params.isSome = true → cfg.pvi_params.isSome = true)) := by
  obtain ⟨s1, s2, s3, s4, s5, s6, s7⟩ := cfg
  cases s1 <;> cases s2 <;> cases s3 <;> cases s4 <;> cases s5 <;> cases s6 <;> cases s7 <;>
    simp [checkConfig]

/-- Witness for `c1_construction_checks` at the all-absent configuration. -/
theorem c1_construction_checks_witness : checkConfig cfgAllNone = true :=
  (c1_construction_checks cfgAllNone).mpr (by simp [cfgAllNone])

/-- C2 counterexample: supplying `shap_params` without `shap_class` passes every construction
check, and the claim then demands the SHAP keys in the metric bundle (the stage's parameters are
configured), but `__calculate_metrics` keys the SHAP stage on `shap_class` and omits them. -/
theorem c2_counterexample :
    checkConfig cfgShapParamsOnly = true ∧
    "shap_svi" ∈ claimedMetricsKeys cfgShapParamsOnly ∧
    "shap_svi" ∉ calculateMetricsKeys cfgShapParamsOnly := by
  refine ⟨rfl, ?_, ?_⟩ <;> decide

/-- C2 (amended): for every configuration passing the construction checks, the metric bundle's
keys are exactly `X` and `y`, the three SHAP keys when the SHAP *class* is configured, `dx_exp`
when the global-explainer *class* is configured, and `pvi`/`pdp`/`ale` when the respective
parameter sets are configured — a skipped stage's key is absent and no extra keys appear. -/
theorem c2_metric_bundle_keys (cfg : ExperimentConfig) (h : checkConfig cfg = true)
    (k : String) :
    (k ∈ calculateMetricsKeys cfg) ↔
      (k = "X" ∨ k = "y" ∨
       ((k = "shap_exp" ∨ k = "shap_sv" ∨ k = "shap_svi") ∧ cfg.shap_class.isSome = true) ∨
       (k = "dx_exp" ∧ cfg.dalex_class.isSome = true) ∨
       (k = "pvi" ∧ cfg.pvi_params.isSome = true) ∨
       (k = "pdp" ∧ cfg.pdp_params.isSome = true) ∨
       (k = "ale" ∧ cfg.ale_params.isSome = true)) := by
  obtain ⟨s1, s2, s3, s4, s5, s6, s7⟩ := cfg
  cases s1 <;> cases s2 <;> cases s3 <;> cases s4 <;> cases s5 <;> cases s6 <;> cases s7 <;>
    simp_all [checkConfig, calculateMetricsKeys, calcShapKeys, calcPviKeys, calcPdpKeys,
      calcAleKeys] <;> tauto

/-- Witness for `c2_metric_bundle_keys` at the fully configured harness and the key `pvi`. -/
theorem c2_metric_bundle_keys_witness : "pvi" ∈ calculateMetricsKeys cfgAllStages :=
  (c2_metric_bundle_keys cfgAllStages (by decide) "pvi").mpr (by decide)

/-- C7 counterexample: the claim says constructing a `DataProcessor` fails when *both* input
modes are supplied, but the assertion at exp_utils.py line 21 is a plain disjunction and accepts
a call that supplies `df`, `target`, `X` and `y` all at once. -/
theorem c7_counterexample :
    dataProcessorCheck (some 0) (some "t") (some 0) (some (0 : Int)) = true ∧
    exactlyOneMode (some 0) (some "t") (some 0) (some (0 : Int)) = false :=
  ⟨rfl, rfl⟩

/-- C7 (amended): constructing a `DataProcessor` succeeds exactly when at least one of the two
input modes — {raw table + target column} or {pre-separated features + labels} — is fully
supplied; in particular it fails when neither mode is complete, but supplying both modes is
accepted. -/
theorem c7_data_processor_check {A B C D : Type} (df : Option A) (tgt : Option B)
    (X : Option C) (y : Option D) :
    dataProcessorCheck df tgt X y = true ↔
      ((df.isSome = true ∧ tgt.isSome = true) ∨ (X.isSome = true ∧ y.isSome = true)) := by
  simp [dataProcessorCheck]

theorem sampleWithoutReplacement_subset (g : Nat → Nat) :
    ∀ (k : Nat) (pool : List Nat), sampleWithoutReplacement g pool k ⊆ pool := by
  intro k
  induction k with
  | zero => intro pool; simp [sampleWithoutReplacement]
  | succ k ih =>
    intro pool
    rw [sampleWithoutReplacement]
    by_cases hp : pool.isEmpty
    · simp [hp]
    · simp only [hp, if_false]
      have hlen : 0 < pool.length := by
        cases pool with
        | nil => simp at hp
        | cons a t => simp
      have hmem : pool.getD (g k % pool.length) 0 ∈ pool := by
        rw [List.getD_eq_getElem pool 0 (Nat.mod_lt _ hlen)]
        exact List.getElem_mem _
      intro x hx
      rcases List.mem_cons.mp hx with h1 | h2
      · exact h1 ▸ hmem
      · exact List.mem_of_mem_erase (ih _ h2)

theorem sampleWithoutReplacement_nodup (g : Nat → Nat) :
    ∀ (k : Nat) (pool : List Nat), pool.Nodup → (sampleWithoutReplacement g pool k).Nodup := by
  intro k
  induction k with
  | zero => intro pool _; simp [sampleWithoutReplacement]
  | succ k ih =>
    intro pool hnd
    rw [sampleWithoutReplacement]
    by_cases hp : pool.isEmpty
    · simp [hp]
    · simp only [hp, if_false]
      refine List.Nodup.cons ?_ (ih _ (hnd.erase _))
      intro hmem
      have hsub := sampleWithoutReplacement_subset g k
        (pool.erase (pool.getD (g k % pool.length) 0)) hmem
      exact ((hnd.mem_erase_iff).mp hsub).1 rfl

theorem sampleWithoutReplacement_length (g : Nat → Nat) :
    ∀ (k : Nat) (pool : List Nat), k ≤ pool.length →
      (sampleWithoutReplacement g pool k).length = k := by
  intro k
  induction k with
  | zero => intro pool _; simp [sampleWithoutReplacement]
  | succ k ih =>
    intro pool hk
    have hlen : 0 < pool.length := Nat.lt_of_lt_of_le (Nat.succ_pos k) hk
    have hp : pool.isEmpty = false := by
      cases pool with
      | nil => simp at hlen
      | cons a t => simp
    rw [sampleWithoutReplacement]
    simp only [hp, Bool.false_eq_true, if_false, List.length_cons]
    have hmem : pool.getD (g k % pool.length) 0 ∈ pool := by
      rw [List.getD_eq_getElem pool 0 (Nat.mod_lt _ hlen)]
      exact List.getElem_mem _
    have herase := List.length_erase_of_mem hmem
    rw [ih _ (by omega)]

/-- C3: within one trial, the random-control index draw
`np.random.choice(numRows, size=len(ids_compressed), replace=False)` is without replacement
(no index repeats) and yields exactly as many indices as the compression step returned, so the
two index sets have equal cardinality. The compression output is the opaque index subset the
external kernel-thinning algorithm produced: a duplicate-free list of valid row indices. -/
theorem c3_random_control (g : Nat → Nat) (numRows : Nat) (ids_compressed : List Nat)
    (hset : ∀ i ∈ ids_compressed, i < numRows) (hnd : ids_compressed.Nodup) :
    (drawRandomIds g numRows ids_compressed).Nodup ∧
    (drawRandomIds g numRows ids_compressed).toFinset.card = ids_compressed.toFinset.card := by
  have hle : ids_compressed.length ≤ numRows := by
    have hsub : ids_compressed.toFinset ⊆ Finset.range numRows := by
      intro i hi
      exact Finset.mem_range.mpr (hset i (List.mem_toFinset.mp hi))
    have hcard := Finset.card_le_card hsub
    rwa [List.toFinset_card_of_nodup hnd, Finset.card_range] at hcard
  have hnd2 : (drawRandomIds g numRows ids_compressed).Nodup :=
    sampleWithoutReplacement_nodup g ids_compressed.length (List.range numRows)
      (List.nodup_range numRows)
  refine ⟨hnd2, ?_⟩
  rw [List.toFinset_card_of_nodup hnd2, List.toFinset_card_of_nodup hnd]
  exact sampleWithoutReplacement_length g ids_compressed.length (List.range numRows)
    (by simpa using hle)

/-- Witness for `c3_random_control`: a concrete trial with 3 test rows and a compressed index
set of size 2. -/
theorem c3_random_control_witness :
    (drawRandomIds (fun _ => 0) 3 [0, 2]).Nodup ∧
    (drawRandomIds (fun _ => 0) 3 [0, 2]).toFinset.card = ([0, 2] : List Nat).toFinset.card :=
  c3_random_control (fun _ => 0) 3 [0, 2] (by decide) (by decide)

/-- C4: positional slicing by one shared index list keeps feature rows and label rows aligned:
slicing the row-wise pairing of `X` and `y` by `idx` gives exactly the pairing of the two slices,
so entry `k` of `X.iloc[idx]` and entry `k` of `y.iloc[idx]` come from the same original row
`idx[k]` of the test partition. -/
theorem c4_row_alignment {α β : Type} (X : List α) (y : List β) (idx : List Nat)
    (hlen : X.length = y.length) (hidx : ∀ i ∈ idx, i < X.length) :
    iloc (X.zip y) idx = (iloc X idx).zip (iloc y idx) := by
  induction idx with
  | nil => rfl
  | cons i is ih =>
    have hi : i < X.length := hidx i (by simp)
    have hi2 : i < y.length := hlen ▸ hi
    have hz : i < (X.zip y).length := by
      rw [List.length_zip]
      omega
    have htail := ih (fun j hj => hidx j (List.mem_cons_of_mem _ hj))
    simp only [iloc, List.filterMap_cons] at htail ⊢
    rw [List.getElem?_eq_getElem hi, List.getElem?_eq_getElem hi2,
      List.getElem?_eq_getElem hz, List.getElem_zip, htail]
    rfl

/-- Witness for `c4_row_alignment` on a concrete 3-row partition sliced by `[2, 0]`. -/
theorem c4_row_alignment_witness :
    iloc (([10, 20, 30] : List Nat).zip ([5, 6, 7] : List Nat)) [2, 0] =
      (iloc ([10, 20, 30] : List Nat) [2, 0]).zip (iloc ([5, 6, 7] : List Nat) [2, 0]) :=
  c4_row_alignment [10, 20, 30] [5, 6, 7] [2, 0] (by decide) (by decide)

theorem getLast_loss_max :
    ∀ (l : List PartRow), l.Sorted (fun a b => a.dropout_loss ≤ b.dropout_loss) →
      ∀ (h : l ≠ []) (r : PartRow), r ∈ l → r.dropout_loss ≤ (l.getLast h).dropout_loss := by
  intro l
  induction l with
  | nil => intro _ h; exact absurd rfl h
  | cons a t ih =>
    intro hs h r hr
    rcases List.sorted_cons.mp hs with ⟨ha, ht⟩
    cases t with
    | nil =>
      have hra : r = a := by simpa using hr
      subst hra
      exact le_refl _
    | cons b t2 =>
      have hne : (b :: t2) ≠ [] := by simp
      rw [List.getLast_cons hne]
      rcases List.mem_cons.mp hr with h1 | h2
      · subst h1
        exact ha _ (List.getLast_mem hne)
      · exact ih ht hne r h2

theorem linspace_length (a b : ℚ) (num : Nat) : (linspace a b num).length = num := by
  rw [linspace, List.length_map, List.length_range]

theorem linspace_getD (a b : ℚ) (num i : Nat) (h : i < num) :
    (linspace a b num).getD i 0 = a + (b - a) * (i : ℚ) / ((num - 1 : Nat) : ℚ) := by
  have hl : i < (linspace a b num).length := by rw [linspace_length]; exact h
  rw [List.getD_eq_getElem _ _ hl]
  simp only [linspace, List.getElem_map, List.getElem_range]

/-- C5 counterexample: on a `model_parts` result table with two real variables, the synthetic
`_full_model_` row first and `_baseline_` row last, the slice `iloc[1:X.shape[1]]` taken by
`__calc_pvi` keeps one row where dropping exactly the two synthetic rows (as the claim states)
keeps two, so the computed loss vector differs from the claimed one. -/
theorem c5_counterexample :
    calcPviLosses examplePartsTable 2 ≠ claimedPviLosses examplePartsTable := by
  decide

/-- C5 (amended): on a result table laid out as `_full_model_` row, `p` loss-ascending real
variable rows, `_baseline_` row, the PVI stage keeps rows `1..p-1` — i.e. the sorted loss values
of all real variables *except the last (highest-loss) one*, not of all real variables as the
claim states; it identifies the highest-importance real variable (last and loss-maximal among
the non-synthetic rows); and it builds an evenly spaced grid of exactly `pdp_domain` points from
the variable's observed minimum to its observed maximum. -/
theorem c5_pvi_stage (fm bl : PartRow) (mid : List PartRow) (p : Nat) (col : List ℚ)
    (d : Nat)
    (hp : mid.length = p)
    (hfm : isSynthetic fm = true) (hbl : isSynthetic bl = true)
    (hmid : ∀ r ∈ mid, isSynthetic r = false)
    (hsorted : mid.Sorted (fun a b => a.dropout_loss ≤ b.dropout_loss))
    (hne : mid ≠ [])
    (hd : 2 ≤ d) :
    calcPviLosses (fm :: mid ++ [bl]) p =
      (sortByVariable (mid.take (p - 1))).map (fun r => r.dropout_loss) ∧
    mostImportantVariable (fm :: mid ++ [bl]) = some ((mid.getLast hne).varName) ∧
    (∀ r ∈ mid, r.dropout_loss ≤ (mid.getLast hne).dropout_loss) ∧
    (variableSplits col d).length = d ∧
    (variableSplits col d).getD 0 0 = listMin col ∧
    (variableSplits col d).getD (d - 1) 0 = listMax col ∧
    (∀ i, i + 1 < d →
      (variableSplits col d).getD (i + 1) 0 - (variableSplits col d).getD i 0 =
        (listMax col - listMin col) / ((d - 1 : Nat) : ℚ)) := by
  have hz : p - 1 - mid.length = 0 := by rw [hp]; omega
  refine ⟨?_, ?_, getLast_loss_max mid hsorted hne, ?_, ?_, ?_, ?_⟩
  · unfold calcPviLosses
    simp [List.take_append_eq_append_take, hz]
  · have hfilter : (fm :: mid ++ [bl]).filter (fun r => !isSynthetic r) = mid := by
      have hmid2 : mid.filter (fun r => !isSynthetic r) = mid :=
        List.filter_eq_self.mpr (fun r hr => by rw [hmid r hr]; rfl)
      simp [List.filter_cons, List.filter_append, hfm, hbl, hmid2]
    unfold mostImportantVariable
    rw [hfilter, List.getLast?_eq_getLast _ hne]
    rfl
  · exact linspace_length _ _ _
  · rw [variableSplits, linspace_getD _ _ _ _ (by omega)]
    simp
  · rw [variableSplits, linspace_getD _ _ _ _ (by omega)]
    have hm : ((d - 1 : Nat) : ℚ) ≠ 0 := Nat.cast_ne_zero.mpr (by omega)
    rw [mul_div_assoc, div_self hm]
    ring
  · intro i hi
    rw [variableSplits, linspace_getD _ _ _ _ hi, linspace_getD _ _ _ _ (by omega)]
    push_cast
    ring

/-- Witness for `c5_pvi_stage` at a concrete result table (`examplePartsTable`), the column
`[0, 4]` and `pdp_domain = 3`. -/
theorem c5_pvi_stage_witness :
    calcPviLosses examplePartsTable 2 = [1] ∧
    mostImportantVariable examplePartsTable = some "bmi" ∧
    (variableSplits [0, 4] 3).getD 2 0 = 4 := by
  have h := c5_pvi_stage ⟨"_full_model_", 0⟩ ⟨"_baseline_", 3⟩ [⟨"age", 1⟩, ⟨"bmi", 2⟩] 2
    [0, 4] 3 (by decide) (by decide) (by decide) (by decide) (by decide) (by decide) (by decide)
  exact ⟨h.1.trans (by decide), h.2.1.trans (by decide), h.2.2.2.2.2.1.trans (by decide)⟩

theorem foldl_timeit_not_mem (dur1 : String → ℚ) (nm : String) :
    ∀ (l : List String) (t : Times), nm ∉ l →
      (l.foldl (fun acc x => timeit acc x (dur1 x)) t) nm = t nm := by
  intro l
  induction l with
  | nil => intro t _; rfl
  | cons x xs ih =>
    intro t hnm
    rw [List.foldl_cons, ih _ (fun h => hnm (List.mem_cons_of_mem _ h))]
    have hx : nm ≠ x := fun h => hnm (h ▸ List.mem_cons_self _ _)
    simp [timeit, hx]

theorem foldl_timeit_mem (dur1 : String → ℚ) (nm : String) :
    ∀ (l : List String) (t : Times), nm ∈ l →
      (l.foldl (fun acc x => timeit acc x (dur1 x)) t) nm = some (dur1 nm) := by
  intro l
  induction l with
  | nil => intro t h; simp at h
  | cons x xs ih =>
    intro t hnm
    by_cases hmem : nm ∈ xs
    · rw [List.foldl_cons, ih _ hmem]
    · have hx : nm = x := by
        rcases List.mem_cons.mp hnm with h1 | h2
        · exact h1
        · exact absurd h2 hmem
      rw [List.foldl_cons, foldl_timeit_not_mem dur1 nm xs _ hmem]
      simp [timeit, hx]

theorem runTimings_rows_length (opNames : List String) (dur : Nat → String → ℚ) :
    ∀ n, (runTimings opNames dur n).2.length = n := by
  intro n
  induction n with
  | zero => rfl
  | succ n ih => simp [runTimings, ih]

/-- C6 counterexample: with one timed operation and durations equal to the seed number, the first
results row snapshots trial 0's duration, which differs from the final (last trial's) value of
the timing table — so it is not the case that only the last trial's timings land in every row. -/
theorem c6_counterexample :
    ((runTimings ["kt"] (fun s _ => (s : ℚ)) 2).2.getD 0 emptyTimes) "kt" = some 0 ∧
    (runTimings ["kt"] (fun s _ => (s : ℚ)) 2).1 "kt" = some 1 ∧
    ((runTimings ["kt"] (fun s _ => (s : ℚ)) 2).2.getD 0 emptyTimes) "kt" ≠
      (runTimings ["kt"] (fun s _ => (s : ℚ)) 2).1 "kt" := by
  refine ⟨rfl, rfl, ?_⟩
  decide

/-- C6 (amended): the timing table is a single process-wide mapping overwritten each seed
iteration, so after a run the harness retains only the most recent seed's timings; each results
row, however, snapshots the values current when the row is built, so row `k` carries trial `k`'s
timings (not the last trial's). -/
theorem c6_timing_table (opNames : List String) (dur : Nat → String → ℚ) (n : Nat)
    (nm : String) (hnm : nm ∈ opNames) :
    (∀ k, k < n → ((runTimings opNames dur n).2.getD k emptyTimes) nm = some (dur k nm)) ∧
    (0 < n → (runTimings opNames dur n).1 nm = some (dur (n - 1) nm)) := by
  induction n with
  | zero => exact ⟨fun k hk => absurd hk (Nat.not_lt_zero k), fun h => absurd h (lt_irrefl 0)⟩
  | succ n ih =>
    constructor
    · intro k hk
      rcases Nat.lt_succ_iff_lt_or_eq.mp hk with hlt | heq
      · simp only [runTimings]
        rw [List.getD_append _ _ _ _ (by rw [runTimings_rows_length]; exact hlt)]
        exact ih.1 k hlt
      · subst heq
        simp only [runTimings]
        have hlen : (runTimings opNames dur k).2.length = k := runTimings_rows_length _ _ _
        rw [List.getD_append_right _ _ _ _ (by omega), hlen, Nat.sub_self]
        exact foldl_timeit_mem _ nm opNames _ hnm
    · intro _
      simp only [runTimings, Nat.add_sub_cancel]
      exact foldl_timeit_mem _ nm opNames _ hnm

/-- Witness for `c6_timing_table`: one timed operation, durations equal to the seed, two
trials — row 1 carries trial 1's duration and the final table retains trial 1's duration. -/
theorem c6_timing_table_witness :
    ((runTimings ["kt"] (fun s _ => (s : ℚ)) 2).2.getD 1 emptyTimes) "kt" = some 1 ∧
    (runTimings ["kt"] (fun s _ => (s : ℚ)) 2).1 "kt" = some 1 := by
  have h := c6_timing_table ["kt"] (fun s _ => (s : ℚ)) 2 "kt" (List.mem_cons_self _ _)
  exact ⟨by simpa using h.1 1 (by omega), by simpa using h.2 (by omega)⟩

theorem dropColumns_nil (df : DataFrame) : df.dropColumns [] = df := by
  cases df with
  | mk cols => simp [DataFrame.dropColumns]

theorem getDummies_nil (df : DataFrame) : df.getDummies [] = df := by
  cases df with
  | mk cols => simp [DataFrame.getDummies]

theorem catStepEff_eq (o cl : DataFrame) (al : Bool) (c : ColLabel) :
    catStepEff (o, cl, al) c =
      (if al then cl.setCol c (catCodes (cl.getCol c)) else o, catStep cl c, false) := rfl

theorem foldl_catStepEff_clean (l : List ColLabel) :
    ∀ (orig clean : DataFrame) (al : Bool),
      (l.foldl catStepEff (orig, clean, al)).2.1 = l.foldl catStep clean := by
  induction l with
  | nil => intro orig clean al; rfl
  | cons c cs ih =>
    intro orig clean al
    rw [List.foldl_cons, List.foldl_cons, catStepEff_eq]
    exact ih _ _ _

/-- C8: on the raw-table path, the `clean_df` produced by `DataProcessor.__preprocess_data` is
exactly the spec's pipeline applied in the stated order — drop the specified columns, then (if
enabled) drop rows with missing values, then convert each specified categorical column to integer
codes while dropping the original column, then one-hot-encode the specified columns, then coerce
all column labels to string type. (The code guards the drop and one-hot steps behind Python
truthiness tests on the lists, which are identities for empty lists.) -/
theorem c8_preprocess_order (df : DataFrame) (to_drop : List ColLabel) (dropna : Bool)
    (to_cat to_one_hot : List ColLabel) :
    preprocessData df to_drop dropna to_cat to_one_hot =
      specPreprocess df to_drop dropna to_cat to_one_hot := by
  by_cases hdrop : to_drop = []
  · subst hdrop
    by_cases hoh : to_one_hot = []
    · subst hoh
      simp [preprocessData, preprocessRaw, specPreprocess, foldl_catStepEff_clean,
        dropColumns_nil, getDummies_nil]
    · have hoh2 : to_one_hot.isEmpty = false := by simpa using hoh
      simp [preprocessData, preprocessRaw, specPreprocess, foldl_catStepEff_clean,
        dropColumns_nil, hoh2]
  · have hd2 : to_drop.isEmpty = false := by simpa using hdrop
    by_cases hoh : to_one_hot = []
    · subst hoh
      simp [preprocessData, preprocessRaw, specPreprocess, foldl_catStepEff_clean, hd2,
        getDummies_nil]
    · have hoh2 : to_one_hot.isEmpty = false := by simpa using hoh
      simp [preprocessData, preprocessRaw, specPreprocess, foldl_catStepEff_clean, hd2, hoh2]

/-- C10: constructing a `DataProcessor` on a raw table with `to_drop=[]`, `dropna=False` and a
non-empty `to_cat` writes the integer category codes into the caller's original dataframe: with
`callerDf` holding the categorical column `c = ["b", "a"]`, the caller's object ends up holding
the codes `[1, 0]` in column `c` — the in-place write `clean_df[cat] = clean_df[cat].cat.codes`
hits the still-aliased input frame before the converted column is dropped from the internal
copy. -/
theorem c10_caller_df_mutated :
    (preprocessRaw callerDf [] false [ColLabel.str "c"] []).1 =
      DataFrame.mk [(ColLabel.str "c", [Cell.intV 1, Cell.intV 0]),
                    (ColLabel.str "t", [Cell.intV 0, Cell.intV 1])] ∧
    (preprocessRaw callerDf [] false [ColLabel.str "c"] []).1 ≠ callerDf := by
  constructor <;> decide

theorem wassersteinDistance_symm (u v : List ℚ) :
    wasserstein_distance u v = wasserstein_distance v u := by
  have hg : mergedGrid u v = mergedGrid v u := by
    unfold mergedGrid
    congr 1
    simp [List.toFinset_append, Finset.union_comm]
  simp only [wasserstein_distance]
  rw [hg]
  exact congrArg List.sum (List.map_congr_left (fun p _ => by rw [abs_sub_comm]))

/-- C9: the feature-wise Wasserstein distance `compute_wasserstein_distance` is symmetric for
matrices over the same feature columns (equal column count): the column range is then the same on
both sides and the 1-D earth-mover distance of each column pair is itself symmetric. -/
theorem c9_wasserstein_symmetric (X X_compressed : List (List ℚ))
    (h : X.length = X_compressed.length) :
    compute_wasserstein_distance X X_compressed =
      compute_wasserstein_distance X_compressed X := by
  simp only [compute_wasserstein_distance]
  rw [h]
  exact congrArg List.sum (List.map_congr_left (fun i _ => wassersteinDistance_symm _ _))

/-- Witness for `c9_wasserstein_symmetric` on concrete one-column matrices of different row
counts. -/
theorem c9_wasserstein_symmetric_witness :
    ([[0, 1]] : List (List ℚ)).length = ([[2]] : List (List ℚ)).length ∧
    compute_wasserstein_distance [[0, 1]] [[2]] = compute_wasserstein_distance [[2]] [[0, 1]] :=
  ⟨rfl, c9_wasserstein_symmetric [[0, 1]] [[2]] rfl⟩

end ExpUtils
